import Mathlib

/-!
Shallow embedding of the file-store bot (src/api/index.py): the subscription
verifier, the retrieval handler (`start`), the admin ingestion path
(`admin_upload`, including the code-generation collision loop), and the
webhook POST handler, together with theorems about them.
-/

namespace FileStore

/-- Result of the platform call `bot.get_chat_member`: either a membership
status string, or an exception raised by the call. -/
inductive PlatformResult where
  | ok (status : String)
  | error
deriving DecidableEq

/-- Embeds `is_user_subscribed`: false when the reported status is in
['left', 'kicked'], true for any other status, and false when the platform
call raises (the `except Exception: return False` branch). -/
def isUserSubscribed : PlatformResult → Bool
  | PlatformResult.ok s => if s = "left" ∨ s = "kicked" then false else true
  | PlatformResult.error => false

/-- One stored document of the `files` collection, as written by
`admin_upload` via `insert_one`.  The `type` field is `Option` because the
read path uses `file_doc.get('type', 'document')`, which tolerates a
document lacking the field. -/
structure FileRecord where
  code : String
  file_id : String
  type : Option String
  uploader : Int
  created_at : Nat
deriving DecidableEq

/-- The three platform send calls selected by the `if/elif/else` on
`file_type` in `start`. -/
inductive SendKind where
  | document
  | video
  | photo
deriving DecidableEq

/-- Embeds `file_type = file_doc.get('type', 'document')` followed by the
dispatch `if file_type == 'video' ... elif file_type == 'photo' ... else`:
a missing or unrecognized stored type falls through to the document send. -/
def dispatchKind : Option String → SendKind
  | some t =>
      if t = "video" then SendKind.video
      else if t = "photo" then SendKind.photo
      else SendKind.document
  | none => SendKind.document

/-- The outcome of one `/start` invocation, abstracting the reply sent. -/
inductive AccessDecision where
  | denied (retryLink : String)
  | welcome
  | notFound
  | deliver (fileId : String) (kind : SendKind) (code : String)
deriving DecidableEq

/-- Observable external calls made by `start`, in order. -/
inductive Event where
  | verifierCall
  | registryLookup
deriving DecidableEq

/-- Decision of a `/start` invocation together with the ordered trace of
external calls it performed. -/
structure StartResult where
  decision : AccessDecision
  events : List Event
deriving DecidableEq

/-- Embeds the Python truthiness test `if CHANNEL_ID:` on the environment
variable: the gate is configured iff the variable is set and non-empty. -/
def gateConfigured : Option String → Bool
  | none => false
  | some c => c != ""

/-- Embeds `collection.find_one({"code": short_code})`. -/
def lookupCode (c : String) (reg : List FileRecord) : Option FileRecord :=
  reg.find? (fun r => r.code == c)

/-- Embeds the deep-link construction
`f"https://t.me/{bot_username}?start={param}"`. -/
def deepLink (botUsername param : String) : String :=
  "https://t.me/" ++ botUsername ++ "?start=" ++ param

/-- Steps 2-4 of `start`, after the subscription gate: bare invocation is
welcomed, otherwise the code is looked up in the registry and the record
(if any) dispatched by its stored type. -/
def startAfterGate (args : List String) (reg : List FileRecord) : StartResult :=
  match args with
  | [] => { decision := AccessDecision.welcome, events := [] }
  | code :: _ =>
      match lookupCode code reg with
      | none =>
          { decision := AccessDecision.notFound, events := [Event.registryLookup] }
      | some doc =>
          { decision := AccessDecision.deliver doc.file_id (dispatchKind doc.type) code,
            events := [Event.registryLookup] }

/-- Embeds the `start` handler: when the gate is configured it first calls
the verifier, denying with a retry deep link built from `args[0] if args
else ""` on failure; otherwise it proceeds to welcome / lookup. -/
def start (channelId : Option String) (platform : PlatformResult)
    (botUsername : String) (args : List String) (reg : List FileRecord) : StartResult :=
  if gateConfigured channelId then
    if isUserSubscribed platform then
      let r := startAfterGate args reg
      { decision := r.decision, events := Event.verifierCall :: r.events }
    else
      { decision := AccessDecision.denied (deepLink botUsername (args.headD "")),
        events := [Event.verifierCall] }
  else
    startAfterGate args reg

/-- An inbound message as seen by `admin_upload`: optional document and
video attachments, the size-ordered photo variant list, and the date. -/
structure Msg where
  document : Option String
  video : Option String
  photo : List String
  date : Nat
deriving DecidableEq

/-- Embeds the media extraction of `admin_upload`: `if message.document ...
elif message.video ... elif message.photo` (priority document > video >
photo), with `message.photo[-1].file_id` selecting the last variant. -/
def extractMedia (m : Msg) : Option (String × String) :=
  match m.document with
  | some d => some (d, "document")
  | none =>
      match m.video with
      | some v => some (v, "video")
      | none =>
          match m.photo.getLast? with
          | some p => some (p, "photo")
          | none => none

/-- Embeds the collision loop `while await collection.find_one({"code":
short_code}): short_code = generate_short_code()`, run over the list of
codes the generator produces in order: the first candidate absent from the
stored codes is committed; exhausting the modelled stream (the loop still
running) is `none`. -/
def findFree : List String → List String → Option String
  | [], _ => none
  | c :: cs, codes => if c ∈ codes then findFree cs codes else some c

/-- Outbound replies of `admin_upload`. -/
inductive Reply where
  | promptMedia
  | saved (link : String)
deriving DecidableEq

/-- Embeds `admin_upload`: non-admin senders are ignored with no reply;
messages without media get a prompt; otherwise a fresh code is found by the
collision loop and the record inserted, replying with the deep link.
`none` models the loop never terminating within the modelled code stream. -/
def adminUpload (adminId senderId : Int) (msg : Msg) (gen : List String)
    (botUsername : String) (reg : List FileRecord) :
    Option (List FileRecord × Option Reply) :=
  if senderId ≠ adminId then
    some (reg, none)
  else
    match extractMedia msg with
    | none => some (reg, some Reply.promptMedia)
    | some (fid, ft) =>
        match findFree gen (reg.map (fun r => r.code)) with
        | none => none
        | some c =>
            some (reg ++ [{ code := c, file_id := fid, type := some ft,
                            uploader := senderId, created_at := msg.date }],
                  some (Reply.saved (deepLink botUsername c)))

/-- A sequence of sequential upload invocations, each an independent
webhook event carrying its own sender, message and generated code stream;
a diverging invocation commits nothing. -/
def runUploads (adminId : Int) (botUsername : String) :
    List (Int × Msg × List String) → List FileRecord → List FileRecord
  | [], reg => reg
  | (sid, msg, gen) :: rest, reg =>
      match adminUpload adminId sid msg gen botUsername reg with
      | some (reg2, _) => runUploads adminId botUsername rest reg2
      | none => runUploads adminId botUsername rest reg

/-- The first `n` codes of an infinite generator stream. -/
def streamPrefix (gen : Nat → String) (n : Nat) : List String :=
  (List.range n).map gen

/-- Result of `json.loads` on the POST body. -/
inductive ParseResult where
  | ok (data : String)
  | malformed
deriving DecidableEq

/-- Outcome of processing the parsed update downstream. -/
inductive ProcOutcome where
  | ok
  | internalError (msg : String)
deriving DecidableEq

/-- An HTTP response of the webhook handler. -/
structure HttpResponse where
  status : Nat
  body : String
deriving DecidableEq

/-- Embeds `handler.process_update`: a downstream processing error is
caught and logged (`print(f"Update processing error: ...")`), never
raised to the caller; the returned value is the logged message, if any. -/
def processUpdateResult : ProcOutcome → Option String
  | ProcOutcome.ok => none
  | ProcOutcome.internalError m => some ("Update processing error: " ++ m)

/-- Embeds `handler.do_POST`: a body that parses as JSON is handed to
`process_update` and acknowledged with 200 "OK" whatever the processing
outcome; malformed JSON raises in `json.loads` and is answered 500. The
second component is the message logged, if any. -/
def doPost : ParseResult → ProcOutcome → HttpResponse × Option String
  | ParseResult.ok _, o => ({ status := 200, body := "OK" }, processUpdateResult o)
  | ParseResult.malformed, _ =>
      ({ status := 500, body := "Internal Server Error" }, some "Error in webhook")

theorem findFree_spec {l codes : List String} {c : String}
    (h : findFree l codes = some c) : c ∈ l ∧ c ∉ codes := by
  induction l with
  | nil => simp [findFree] at h
  | cons a as ih =>
      by_cases ha : a ∈ codes
      · simp only [findFree, if_pos ha] at h
        rcases ih h with ⟨h1, h2⟩
        exact ⟨List.mem_cons_of_mem _ h1, h2⟩
      · simp only [findFree, if_neg ha, Option.some.injEq] at h
        subst h
        exact ⟨List.mem_cons_self _ _, ha⟩

theorem findFree_eq_none_iff (l codes : List String) :
    findFree l codes = none ↔ ∀ c ∈ l, c ∈ codes := by
  induction l with
  | nil => simp [findFree]
  | cons a as ih =>
      by_cases ha : a ∈ codes
      · simp [findFree, if_pos ha, ih, ha]
      · simp [findFree, if_neg ha, ha]

theorem findFree_append_of_none {l codes : List String}
    (h : findFree l codes = none) (l2 : List String) :
    findFree (l ++ l2) codes = findFree l2 codes := by
  induction l with
  | nil => simp
  | cons a as ih =>
      by_cases ha : a ∈ codes
      · simp only [findFree, if_pos ha] at h
        simp only [List.cons_append, findFree, if_pos ha]
        exact ih h
      · simp [findFree, if_neg ha] at h

theorem streamPrefix_succ (gen : Nat → String) (n : Nat) :
    streamPrefix gen (n + 1) = streamPrefix gen n ++ [gen n] := by
  simp [streamPrefix, List.range_succ]

theorem mem_streamPrefix (gen : Nat → String) (n : Nat) (c : String) :
    c ∈ streamPrefix gen n ↔ ∃ m, m < n ∧ gen m = c := by
  simp [streamPrefix, List.mem_map, List.mem_range]

theorem findFree_first (gen : Nat → String) (codes : List String) (n : Nat)
    (hn : gen n ∉ codes) (hm : ∀ m, m < n → gen m ∈ codes) :
    findFree (streamPrefix gen (n + 1)) codes = some (gen n) := by
  have hnone : findFree (streamPrefix gen n) codes = none := by
    rw [findFree_eq_none_iff]
    intro c hc
    rcases (mem_streamPrefix gen n c).mp hc with ⟨m, hmn, rfl⟩
    exact hm m hmn
  rw [streamPrefix_succ, findFree_append_of_none hnone]
  simp [findFree, hn]

theorem lookupCode_eq_none {c : String} {reg : List FileRecord}
    (h : c ∉ reg.map (fun r => r.code)) : lookupCode c reg = none := by
  rw [lookupCode, List.find?_eq_none]
  intro r hr hbeq
  exact h (List.mem_map.mpr ⟨r, hr, by simpa using hbeq⟩)

theorem lookupCode_append_of_none {c : String} {reg : List FileRecord}
    (h : lookupCode c reg = none) (l2 : List FileRecord) :
    lookupCode c (reg ++ l2) = lookupCode c l2 := by
  induction reg with
  | nil => simp
  | cons r rs ih =>
      by_cases hb : (r.code == c) = true
      · rw [lookupCode, List.find?_cons_of_pos (p := fun x : FileRecord => x.code == c) _ hb] at h
        exact absurd h (by simp)
      · rw [lookupCode, List.find?_cons_of_neg (p := fun x : FileRecord => x.code == c) _ hb] at h
        rw [List.cons_append, lookupCode,
          List.find?_cons_of_neg (p := fun x : FileRecord => x.code == c) _ hb]
        exact ih h

theorem lookupCode_last {c : String} {reg : List FileRecord} {rec : FileRecord}
    (hfresh : c ∉ reg.map (fun r => r.code)) (hc : rec.code = c) :
    lookupCode c (reg ++ [rec]) = some rec := by
  rw [lookupCode_append_of_none (lookupCode_eq_none hfresh)]
  simp [lookupCode, List.find?, hc]

theorem adminUpload_shape {adminId senderId : Int} {msg : Msg} {gen : List String}
    {bu : String} {reg reg' : List FileRecord} {rep : Option Reply}
    (h : adminUpload adminId senderId msg gen bu reg = some (reg', rep)) :
    reg' = reg ∨ ∃ rec : FileRecord, reg' = reg ++ [rec]
      ∧ rec.code ∉ reg.map (fun r => r.code) := by
  by_cases hs : senderId ≠ adminId
  · rw [adminUpload, if_pos hs] at h
    simp at h
    exact Or.inl h.1.symm
  · rw [adminUpload, if_neg hs] at h
    cases hx : extractMedia msg with
    | none => rw [hx] at h; simp at h; exact Or.inl h.1.symm
    | some pr =>
        obtain ⟨fid, ft⟩ := pr
        rw [hx] at h
        cases hf : findFree gen (reg.map (fun r => r.code)) with
        | none => rw [hf] at h; simp at h
        | some c =>
            rw [hf] at h
            simp only [Option.some.injEq, Prod.mk.injEq] at h
            exact Or.inr ⟨_, h.1.symm, (findFree_spec hf).2⟩

theorem adminUpload_nodup {adminId senderId : Int} {msg : Msg} {gen : List String}
    {bu : String} {reg reg' : List FileRecord} {rep : Option Reply}
    (h : adminUpload adminId senderId msg gen bu reg = some (reg', rep))
    (hn : (reg.map (fun r => r.code)).Nodup) :
    (reg'.map (fun r => r.code)).Nodup := by
  rcases adminUpload_shape h with rfl | ⟨rec, rfl, hfresh⟩
  · exact hn
  · simp only [List.map_append, List.map_cons, List.map_nil]
    rw [← List.concat_eq_append]
    exact List.Nodup.concat hfresh hn

theorem runUploads_nodup (adminId : Int) (bu : String) :
    ∀ (evs : List (Int × Msg × List String)) (reg : List FileRecord),
      (reg.map (fun r => r.code)).Nodup →
      ((runUploads adminId bu evs reg).map (fun r => r.code)).Nodup := by
  intro evs
  induction evs with
  | nil => intro reg hn; exact hn
  | cons e rest ih =>
      intro reg hn
      obtain ⟨sid, msg, gen⟩ := e
      cases h : adminUpload adminId sid msg gen bu reg with
      | none =>
          rw [runUploads, h]
          exact ih reg hn
      | some p =>
          obtain ⟨reg2, rep⟩ := p
          rw [runUploads, h]
          exact ih reg2 (adminUpload_nodup h hn)

/-- C1: `isUserSubscribed` returns false for the reported statuses "left"
and "kicked", true for any other reported status, and false when the
platform call raises; consequently, with the gate configured, a platform
error on any retrieval request yields a Denied decision (never Deliver or
NotFound). -/
theorem c1_verifier_fail_closed :
    (∀ s : String, s = "left" ∨ s = "kicked" →
        isUserSubscribed (PlatformResult.ok s) = false)
    ∧ (∀ s : String, s ≠ "left" → s ≠ "kicked" →
        isUserSubscribed (PlatformResult.ok s) = true)
    ∧ isUserSubscribed PlatformResult.error = false
    ∧ (∀ (channelId : Option String) (bu : String) (args : List String)
        (reg : List FileRecord), gateConfigured channelId = true →
        (start channelId PlatformResult.error bu args reg).decision =
          AccessDecision.denied (deepLink bu (args.headD ""))) := by
  refine ⟨?_, ?_, rfl, ?_⟩
  · rintro s (rfl | rfl) <;> rfl
  · intro s h1 h2
    simp [isUserSubscribed, h1, h2]
  · intro channelId bu args reg hgate
    simp [start, hgate, isUserSubscribed]

/-- Witness for C1 at concrete inputs. -/
theorem c1_verifier_fail_closed_witness :
    isUserSubscribed (PlatformResult.ok "left") = false
    ∧ isUserSubscribed (PlatformResult.ok "member") = true
    ∧ (start (some "@ch") PlatformResult.error "bot" ["xy"] []).decision =
        AccessDecision.denied (deepLink "bot" "xy") :=
  ⟨c1_verifier_fail_closed.1 "left" (Or.inl rfl),
   c1_verifier_fail_closed.2.1 "member" (by decide) (by decide),
   c1_verifier_fail_closed.2.2.2 (some "@ch") "bot" ["xy"] [] (by decide)⟩

/-- C2: with the gate configured, `start` calls the verifier first (the
event trace begins with the verifier call), and on a negative answer it
returns Denied with the deep link built from the bot's username and the
first argument (empty when absent), without any registry lookup. -/
theorem c2_gate_before_lookup (channelId : Option String)
    (platform : PlatformResult) (bu : String) (args : List String)
    (reg : List FileRecord) (hgate : gateConfigured channelId = true) :
    (∃ rest, (start channelId platform bu args reg).events =
        Event.verifierCall :: rest)
    ∧ (isUserSubscribed platform = false →
        (start channelId platform bu args reg).decision =
            AccessDecision.denied (deepLink bu (args.headD ""))
          ∧ Event.registryLookup ∉ (start channelId platform bu args reg).events) := by
  constructor
  · by_cases hsub : isUserSubscribed platform
    · exact ⟨(startAfterGate args reg).events, by simp [start, hgate, hsub]⟩
    · exact ⟨[], by simp [start, hgate, hsub]⟩
  · intro hsub
    constructor <;> simp [start, hgate, hsub]

/-- Witness for C2 at concrete inputs. -/
theorem c2_gate_before_lookup_witness :
    gateConfigured (some "@ch") = true
    ∧ ((start (some "@ch") PlatformResult.error "bot" ["k"] []).decision =
          AccessDecision.denied (deepLink "bot" "k")
        ∧ Event.registryLookup ∉
            (start (some "@ch") PlatformResult.error "bot" ["k"] []).events) :=
  ⟨by decide,
   (c2_gate_before_lookup (some "@ch") PlatformResult.error "bot" ["k"] []
      (by decide)).2 (by decide)⟩

/-- C3: the ingestion path never commits a colliding code — a successful
`adminUpload` either leaves the registry unchanged or appends one record
whose code is absent from the existing codes — and therefore any sequence
of sequential uploads preserves pairwise distinctness of stored codes. -/
theorem c3_code_uniqueness (adminId : Int) (bu : String) :
    (∀ (senderId : Int) (msg : Msg) (gen : List String)
        (reg reg' : List FileRecord) (rep : Option Reply),
        adminUpload adminId senderId msg gen bu reg = some (reg', rep) →
        reg' = reg ∨ ∃ rec : FileRecord, reg' = reg ++ [rec]
          ∧ rec.code ∉ reg.map (fun r => r.code))
    ∧ (∀ (evs : List (Int × Msg × List String)) (reg : List FileRecord),
        (reg.map (fun r => r.code)).Nodup →
        ((runUploads adminId bu evs reg).map (fun r => r.code)).Nodup) :=
  ⟨fun _ _ _ _ _ _ h => adminUpload_shape h, runUploads_nodup adminId bu⟩

/-- Witness for C3: two sequential uploads, the second forced through a
collision with the first, still yield pairwise distinct codes. -/
theorem c3_code_uniqueness_witness :
    ((runUploads 5 "bot"
        [(5, { document := none, video := some "V", photo := [], date := 0 }, ["aa"]),
         (5, { document := some "D", video := none, photo := [], date := 1 },
            ["aa", "bb"])]
        []).map (fun r => r.code)).Nodup :=
  (c3_code_uniqueness 5 "bot").2
    [(5, { document := none, video := some "V", photo := [], date := 0 }, ["aa"]),
     (5, { document := some "D", video := none, photo := [], date := 1 },
        ["aa", "bb"])]
    [] (by decide)

/-- C4: round-trip — an admin upload of a video with reference R that
returns a code (via the saved-link reply) is followed by a retrieval with
that code, with the gate off or passed, yielding Deliver(R, video, code). -/
theorem c4_roundtrip (adminId : Int) (bu bu2 R : String) (msg : Msg)
    (gen : List String) (reg reg' : List FileRecord) (rep : Option Reply)
    (channelId : Option String) (platform : PlatformResult)
    (hdoc : msg.document = none) (hvid : msg.video = some R)
    (hup : adminUpload adminId adminId msg gen bu reg = some (reg', rep))
    (hgate : gateConfigured channelId = false ∨ isUserSubscribed platform = true) :
    ∃ c : String, rep = some (Reply.saved (deepLink bu c))
      ∧ (start channelId platform bu2 [c] reg').decision =
          AccessDecision.deliver R SendKind.video c := by
  have hx : extractMedia msg = some (R, "video") := by
    rw [extractMedia, hdoc, hvid]
  rw [adminUpload, if_neg (fun hne => hne rfl), hx] at hup
  cases hf : findFree gen (reg.map (fun r => r.code)) with
  | none => rw [hf] at hup; exact absurd hup (by simp)
  | some c =>
      rw [hf] at hup
      simp only [Option.some.injEq, Prod.mk.injEq] at hup
      obtain ⟨hreg, hrep⟩ := hup
      refine ⟨c, hrep.symm, ?_⟩
      have hlook : lookupCode c reg' = some
          { code := c, file_id := R, type := some "video",
            uploader := adminId, created_at := msg.date } := by
        rw [← hreg]
        exact lookupCode_last (findFree_spec hf).2 rfl
      have hafter : (startAfterGate [c] reg').decision =
          AccessDecision.deliver R SendKind.video c := by
        rw [startAfterGate, hlook]
        rfl
      rcases hgate with hg | hsub
      · simpa [start, hg] using hafter
      · by_cases hg : gateConfigured channelId
        · simpa [start, hg, hsub] using hafter
        · simpa [start, hg] using hafter

/-- Witness for C4 at concrete inputs. -/
theorem c4_roundtrip_witness :
    ∃ c : String,
      (some (Reply.saved "https://t.me/bot?start=aa") : Option Reply) =
          some (Reply.saved (deepLink "bot" c))
      ∧ (start none PlatformResult.error "bot2" [c]
            [{ code := "aa", file_id := "R", type := some "video",
               uploader := 5, created_at := 0 }]).decision =
          AccessDecision.deliver "R" SendKind.video c :=
  c4_roundtrip 5 "bot" "bot2" "R"
    { document := none, video := some "R", photo := [], date := 0 }
    ["aa"] []
    [{ code := "aa", file_id := "R", type := some "video",
       uploader := 5, created_at := 0 }]
    (some (Reply.saved "https://t.me/bot?start=aa")) none PlatformResult.error
    rfl rfl (by decide) (Or.inl (by decide))

/-- C5: an upload from a sender other than the configured admin leaves the
registry unchanged and produces no reply of any kind. -/
theorem c5_nonadmin_silent (adminId senderId : Int) (msg : Msg)
    (gen : List String) (bu : String) (reg : List FileRecord)
    (h : senderId ≠ adminId) :
    adminUpload adminId senderId msg gen bu reg = some (reg, none) := by
  rw [adminUpload, if_pos h]

/-- Witness for C5 at concrete inputs. -/
theorem c5_nonadmin_silent_witness :
    adminUpload 7 3 { document := some "D", video := none, photo := [], date := 0 }
        [] "bot" [] = some ([], none) :=
  c5_nonadmin_silent 7 3
    { document := some "D", video := none, photo := [], date := 0 }
    [] "bot" [] (by decide)

/-- C6: with the gate unset or empty, `start` never calls the verifier and
never returns Denied, for any requester state and any arguments. -/
theorem c6_gate_off (channelId : Option String) (platform : PlatformResult)
    (bu : String) (args : List String) (reg : List FileRecord)
    (h : gateConfigured channelId = false) :
    Event.verifierCall ∉ (start channelId platform bu args reg).events
    ∧ ∀ link, (start channelId platform bu args reg).decision ≠
        AccessDecision.denied link := by
  have hs : start channelId platform bu args reg = startAfterGate args reg := by
    simp [start, h]
  rw [hs]
  constructor
  · cases args with
    | nil => simp [startAfterGate]
    | cons c rest =>
        cases hl : lookupCode c reg <;> simp [startAfterGate, hl]
  · intro link
    cases args with
    | nil => simp [startAfterGate]
    | cons c rest =>
        cases hl : lookupCode c reg <;> simp [startAfterGate, hl]

/-- Witness for C6 at concrete inputs (gate set to the empty string). -/
theorem c6_gate_off_witness :
    Event.verifierCall ∉
        (start (some "") PlatformResult.error "bot" ["k"] []).events
    ∧ ∀ link, (start (some "") PlatformResult.error "bot" ["k"] []).decision ≠
        AccessDecision.denied link :=
  c6_gate_off (some "") PlatformResult.error "bot" ["k"] [] (by decide)

/-- C7: media extraction follows the priority document > video > photo,
and the photo branch stores the reference of the last (highest-resolution)
variant of the size-ordered sequence. -/
theorem c7_media_priority :
    (∀ (m : Msg) (d : String), m.document = some d →
        extractMedia m = some (d, "document"))
    ∧ (∀ (m : Msg) (v : String), m.document = none → m.video = some v →
        extractMedia m = some (v, "video"))
    ∧ (∀ m : Msg, m.document = none → m.video = none →
        extractMedia m = Option.map (fun p => (p, "photo")) m.photo.getLast?) := by
  refine ⟨?_, ?_, ?_⟩
  · intro m d hd
    rw [extractMedia, hd]
  · intro m v hd hv
    rw [extractMedia, hd, hv]
  · intro m hd hv
    rw [extractMedia, hd, hv]
    cases m.photo.getLast? <;> rfl

/-- Witness for C7 at concrete inputs. -/
theorem c7_media_priority_witness :
    extractMedia { document := some "D", video := some "V",
                   photo := ["p1", "p2"], date := 0 } = some ("D", "document")
    ∧ extractMedia { document := none, video := some "V",
                     photo := ["p1", "p2"], date := 0 } = some ("V", "video")
    ∧ extractMedia { document := none, video := none,
                     photo := ["p1", "p2"], date := 0 } =
        Option.map (fun p => (p, "photo")) (["p1", "p2"] : List String).getLast? :=
  ⟨c7_media_priority.1 _ "D" rfl, c7_media_priority.2.1 _ "V" rfl rfl,
   c7_media_priority.2.2 _ rfl rfl⟩

/-- C8: a POST whose body parses as JSON is acknowledged 200 with body
"OK" whatever the downstream processing outcome; a downstream internal
error is logged, not surfaced; a malformed body is answered 500. -/
theorem c8_webhook_ack (d lg : String) (o : ProcOutcome) :
    ((doPost (ParseResult.ok d) o).1.status = 200
      ∧ (doPost (ParseResult.ok d) o).1.body = "OK")
    ∧ ((doPost (ParseResult.ok d) (ProcOutcome.internalError lg)).1.status = 200
      ∧ (doPost (ParseResult.ok d) (ProcOutcome.internalError lg)).2 =
          some ("Update processing error: " ++ lg))
    ∧ (doPost ParseResult.malformed o).1.status = 500 :=
  ⟨⟨rfl, rfl⟩, ⟨rfl, rfl⟩, rfl⟩

/-- C10: delivery dispatch over the stored kind is total with a document
default — the video and photo sends are selected exactly for the stored
values "video" and "photo", everything else (a missing field included)
falls to the document send — and `start` delivers a found record through
this dispatch. -/
theorem c10_dispatch_total :
    (∀ ot : Option String, dispatchKind ot = SendKind.video ↔ ot = some "video")
    ∧ (∀ ot : Option String, dispatchKind ot = SendKind.photo ↔ ot = some "photo")
    ∧ dispatchKind none = SendKind.document
    ∧ (∀ t : String, t ≠ "video" → t ≠ "photo" →
        dispatchKind (some t) = SendKind.document)
    ∧ (∀ (channelId : Option String) (platform : PlatformResult) (bu c : String)
        (reg : List FileRecord) (doc : FileRecord),
        gateConfigured channelId = false → lookupCode c reg = some doc →
        (start channelId platform bu [c] reg).decision =
          AccessDecision.deliver doc.file_id (dispatchKind doc.type) c) := by
  refine ⟨?_, ?_, rfl, ?_, ?_⟩
  · intro ot
    cases ot with
    | none => simp [dispatchKind]
    | some t =>
        by_cases h1 : t = "video"
        · subst h1; simp [dispatchKind]
        · by_cases h2 : t = "photo"
          · subst h2; simp [dispatchKind, h1]
          · simp [dispatchKind, h1, h2]
  · intro ot
    cases ot with
    | none => simp [dispatchKind]
    | some t =>
        by_cases h1 : t = "video"
        · subst h1; simp [dispatchKind]
        · by_cases h2 : t = "photo"
          · subst h2; simp [dispatchKind, h1]
          · simp [dispatchKind, h1, h2]
  · intro t h1 h2
    simp [dispatchKind, h1, h2]
  · intro channelId platform bu c reg doc hg hl
    simp [start, hg, startAfterGate, hl]

/-- Witness for C10 at concrete inputs (a record with an unrecognized
stored kind is delivered as a document). -/
theorem c10_dispatch_total_witness :
    (start none PlatformResult.error "bot" ["k"]
        [{ code := "k", file_id := "F", type := some "audio",
           uploader := 1, created_at := 0 }]).decision =
      AccessDecision.deliver "F"
        (dispatchKind (some "audio")) "k" :=
  c10_dispatch_total.2.2.2.2 none PlatformResult.error "bot" "k"
    [{ code := "k", file_id := "F", type := some "audio",
       uploader := 1, created_at := 0 }]
    { code := "k", file_id := "F", type := some "audio",
      uploader := 1, created_at := 0 }
    (by decide) (by decide)

/-- C9: over the stream of codes the generator produces, the collision
loop terminates (commits) exactly when some code of the stream is absent
from the registry; when it does, it commits the first such free code; and
for every bound k there are inputs on which the loop runs past k
collisions before committing, so the loop itself has no iteration cap. -/
theorem c9_loop_first_free :
    (∀ (gen : Nat → String) (codes : List String),
        (∃ n, gen n ∉ codes) ↔
          ∃ N, (findFree (streamPrefix gen N) codes).isSome = true)
    ∧ (∀ (gen : Nat → String) (codes : List String) (n : Nat),
        gen n ∉ codes → (∀ m, m < n → gen m ∈ codes) →
        findFree (streamPrefix gen (n + 1)) codes = some (gen n))
    ∧ (∀ k : Nat, ∃ (gen : Nat → String) (codes : List String),
        (∀ m, m < k → gen m ∈ codes)
        ∧ findFree (streamPrefix gen (k + 1)) codes = some (gen k)) := by
  refine ⟨?_, ?_, ?_⟩
  · intro gen codes
    constructor
    · rintro ⟨n, hn⟩
      refine ⟨n + 1, ?_⟩
      cases h : findFree (streamPrefix gen (n + 1)) codes with
      | some c => rfl
      | none =>
          exact absurd (((findFree_eq_none_iff _ _).mp h) (gen n)
            ((mem_streamPrefix gen (n + 1) (gen n)).mpr
              ⟨n, Nat.lt_succ_self n, rfl⟩)) hn
    · rintro ⟨N, hsome⟩
      obtain ⟨c, hc⟩ := Option.isSome_iff_exists.mp hsome
      obtain ⟨hmem, hfree⟩ := findFree_spec hc
      obtain ⟨m, _, rfl⟩ := (mem_streamPrefix gen N c).mp hmem
      exact ⟨m, hfree⟩
  · intro gen codes n hn hm
    exact findFree_first gen codes n hn hm
  · intro k
    refine ⟨fun n => String.mk (List.replicate n 'a'),
      streamPrefix (fun n => String.mk (List.replicate n 'a')) k, ?_, ?_⟩
    · intro m hm
      exact (mem_streamPrefix _ k _).mpr ⟨m, hm, rfl⟩
    · refine findFree_first _ _ k ?_ ?_
      · intro hmem
        obtain ⟨m, hm, heq⟩ := (mem_streamPrefix _ k _).mp hmem
        have hlen : m = k := by
          have hdata : List.replicate m 'a' = List.replicate k 'a' := by
            injection heq
          have := congrArg List.length hdata
          simpa using this
        omega
      · intro m hm
        exact (mem_streamPrefix _ k _).mpr ⟨m, hm, rfl⟩

/-- Witness for C9 at concrete inputs. -/
theorem c9_loop_first_free_witness :
    findFree (streamPrefix (fun _ => "z") (0 + 1)) ["a"] = some "z" :=
  c9_loop_first_free.2.1 (fun _ => "z") ["a"] 0 (by decide)
    (fun m hm => absurd hm (Nat.not_lt_zero m))

end FileStore
